import Mathlib

/-!
# Verification of the address-book persistence program (`task1/task1.py`)

This file gives a shallow embedding in Lean of the data model and the
operations of the Python address-book program: the field validators
(`Name`, `Phone`, `Birthday`), the `Record` and `AddressBook` operations,
the birthday queries, and the pickle-based persistence layer
(`save_data` / `load_data`).  Python exceptions are modelled with
`Except`, `datetime.date` with an explicit year/month/day structure, and
the file system with an explicit state record.  Theorems at the end of
the file settle the specification claims against these definitions.
-/

namespace Task1

/-! ## Python character and string primitives

`\d` of Python's `re` module and `str.isdigit` are modelled over the
ASCII decimal digits; `str.strip` over the ASCII whitespace characters.
-/

def pyIsDigit (c : Char) : Bool := c.isDigit

def pyIsSpace (c : Char) : Bool :=
  c = ' ' || c = '\t' || c = '\n' || c = '\x0d' || c = '\x0b' || c = '\x0c'

/-- Model of Python `str.strip()`: drop whitespace from both ends. -/
def pyStrip (s : String) : String :=
  ⟨((s.data.dropWhile pyIsSpace).reverse.dropWhile pyIsSpace).reverse⟩

/-- Model of `re.sub(r'\D', '', s)`: keep only the digit characters. -/
def pySubNonDigits (s : String) : String :=
  ⟨s.data.filter pyIsDigit⟩

/-- Model of Python `str.isdigit()`: nonempty and all digits. -/
def pyStrIsdigit (s : String) : Bool :=
  !s.data.isEmpty && s.data.all pyIsDigit

/-! ## Python errors

The program raises only `ValueError` from its own validation code; pickle
and I/O errors are handled at the persistence boundary and are modelled
there directly. -/

inductive PyErr where
  | valueError (msg : String)
deriving DecidableEq, Repr

deriving instance DecidableEq for Except

/-! ## Dates (`datetime.date`)

A proleptic-Gregorian date, valid in Python's range `year ∈ [1, 9999]`.
`toOrdinal` is `date.toordinal()` (day 1 = 0001-01-01), computed by the
same formula CPython uses. -/

structure PyDate where
  year : Nat
  month : Nat
  day : Nat
deriving DecidableEq, Repr

def isLeapYear (y : Nat) : Bool :=
  y % 4 == 0 && (y % 100 != 0 || y % 400 == 0)

def daysInMonth (y m : Nat) : Nat :=
  if m = 2 then (if isLeapYear y then 29 else 28)
  else if m = 4 ∨ m = 6 ∨ m = 9 ∨ m = 11 then 30
  else 31

def PyDate.isValid (d : PyDate) : Bool :=
  1 ≤ d.year && d.year ≤ 9999 && 1 ≤ d.month && d.month ≤ 12 &&
    1 ≤ d.day && d.day ≤ daysInMonth d.year d.month

def daysBeforeMonth (y m : Nat) : Nat :=
  (List.range (m - 1)).foldl (fun acc i => acc + daysInMonth y (i + 1)) 0

def PyDate.toOrdinal (d : PyDate) : Nat :=
  365 * (d.year - 1) + (d.year - 1) / 4 - (d.year - 1) / 100 + (d.year - 1) / 400
    + daysBeforeMonth d.year d.month + d.day

/-- Model of `date.weekday()`: Monday is `0`, Sunday is `6`. -/
def PyDate.pyWeekday (d : PyDate) : Nat :=
  (d.toOrdinal + 6) % 7

/-- Python `date` comparison is lexicographic on (year, month, day). -/
def PyDate.pyLt (a b : PyDate) : Bool :=
  a.year < b.year || (a.year == b.year &&
    (a.month < b.month || (a.month == b.month && a.day < b.day)))

/-- Model of `date.replace(year=y)`: the `datetime` constructor re-validates the
resulting date and raises `ValueError` when it is invalid (for example
29 February replaced into a non-leap year). -/
def PyDate.replaceYear (d : PyDate) (y : Nat) : Except PyErr PyDate :=
  let d2 : PyDate := ⟨y, d.month, d.day⟩
  if d2.isValid then .ok d2
  else .error (.valueError "day is out of range for month")

/-- The successor day of a valid date (used for `+ timedelta(days=n)`). -/
def PyDate.nextDay (d : PyDate) : PyDate :=
  if d.day < daysInMonth d.year d.month then ⟨d.year, d.month, d.day + 1⟩
  else if d.month < 12 then ⟨d.year, d.month + 1, 1⟩
  else ⟨d.year + 1, 1, 1⟩

/-- Model of `d + timedelta(days=n)` for `n ≥ 0`. -/
def PyDate.addDays (d : PyDate) : Nat → PyDate
  | 0 => d
  | n + 1 => (d.nextDay).addDays n

/-! ## `strftime("%d.%m.%Y")` -/

def digitChar (n : Nat) : Char := Char.ofNat (48 + n)

def digitVal (c : Char) : Nat := c.toNat - 48

def fmt2 (n : Nat) : List Char := [digitChar (n / 10 % 10), digitChar (n % 10)]

def fmt4 (n : Nat) : List Char :=
  [digitChar (n / 1000 % 10), digitChar (n / 100 % 10),
   digitChar (n / 10 % 10), digitChar (n % 10)]

/-- Model of `date.strftime("%d.%m.%Y")`, zero-padded fields. -/
def PyDate.strftimeDMY (d : PyDate) : String :=
  ⟨fmt2 d.day ++ ('.' :: (fmt2 d.month ++ ('.' :: fmt4 d.year)))⟩

/-! ## `datetime.strptime(s, "%d.%m.%Y")`

CPython's `_strptime` compiles the format to the regular expression
`(3[01]|[12]\d|0[1-9]|[1-9])\.(1[0-2]|0[1-9]|[1-9])\.(\d\d\d\d)`,
anchored at the start, requires the whole string to be consumed, and then
builds the `datetime`, which re-validates the calendar date.  The
two-digit day alternatives match exactly the two-digit strings with value
in `[1, 31]`, and the month ones those with value in `[1, 12]`; the
regex engine backtracks from a two-digit field to a one-digit field when
the rest of the pattern cannot match. -/

def parseDot : List Char → Option (List Char)
  | '.' :: rest => some rest
  | _ => none

def parseYear4 : List Char → Option (Nat × List Char)
  | c1 :: c2 :: c3 :: c4 :: rest =>
    if pyIsDigit c1 && pyIsDigit c2 && pyIsDigit c3 && pyIsDigit c4 then
      some (1000 * digitVal c1 + 100 * digitVal c2 + 10 * digitVal c3 + digitVal c4, rest)
    else none
  | _ => none

/-- Two-digit day field: `3[01]|[12]\d|0[1-9]`, i.e. two digits with value 1–31. -/
def parseDay2 : List Char → Option (Nat × List Char)
  | c1 :: c2 :: rest =>
    if pyIsDigit c1 && pyIsDigit c2 &&
        1 ≤ 10 * digitVal c1 + digitVal c2 && 10 * digitVal c1 + digitVal c2 ≤ 31 then
      some (10 * digitVal c1 + digitVal c2, rest)
    else none
  | _ => none

/-- Two-digit month field: `1[0-2]|0[1-9]`, i.e. two digits with value 1–12. -/
def parseMonth2 : List Char → Option (Nat × List Char)
  | c1 :: c2 :: rest =>
    if pyIsDigit c1 && pyIsDigit c2 &&
        1 ≤ 10 * digitVal c1 + digitVal c2 && 10 * digitVal c1 + digitVal c2 ≤ 12 then
      some (10 * digitVal c1 + digitVal c2, rest)
    else none
  | _ => none

/-- One-digit field `[1-9]`. -/
def parseField1 : List Char → Option (Nat × List Char)
  | c :: rest =>
    if pyIsDigit c && 1 ≤ digitVal c then some (digitVal c, rest) else none
  | [] => none

def parseTailDMY (d m : Nat) (s : List Char) : Option (Nat × Nat × Nat) :=
  (parseDot s).bind fun s =>
    (parseYear4 s).bind fun ys =>
      if ys.2.isEmpty then some (d, m, ys.1) else none

def parseMonthTail (d : Nat) (s : List Char) : Option (Nat × Nat × Nat) :=
  ((parseMonth2 s).bind fun ms => parseTailDMY d ms.1 ms.2) <|>
  ((parseField1 s).bind fun ms => parseTailDMY d ms.1 ms.2)

def parseDMY (s : List Char) : Option (Nat × Nat × Nat) :=
  ((parseDay2 s).bind fun ds => (parseDot ds.2).bind fun s2 => parseMonthTail ds.1 s2) <|>
  ((parseField1 s).bind fun ds => (parseDot ds.2).bind fun s2 => parseMonthTail ds.1 s2)

/-- Model of `datetime.strptime(s, "%d.%m.%Y")`, undefined on failure:
the regex match (day, then month, then 4-digit year, whole string
consumed) followed by the `datetime` constructor's calendar validation. -/
def pyStrptimeDate (s : String) : Option PyDate :=
  (parseDMY s.data).bind fun dmy =>
    if (PyDate.mk dmy.2.2 dmy.2.1 dmy.1).isValid then
      some (PyDate.mk dmy.2.2 dmy.2.1 dmy.1)
    else none

/-! ## Field validators -/

/-- Model of `Name.__init__`: rejects empty or all-whitespace, stores the
stripped value. -/
def mkName (value : String) : Except PyErr String :=
  if value.isEmpty || (pyStrip value).isEmpty then
    .error (.valueError "Name cannot be empty")
  else .ok (pyStrip value)

/-- Model of `Phone._is_valid_phone`: strip non-digits, require exactly 10 digits. -/
def isValidPhone (phone : String) : Bool :=
  (pySubNonDigits phone).length == 10 && pyStrIsdigit (pySubNonDigits phone)

/-- Model of `Phone.__init__`: validates and stores the original raw string. -/
def mkPhone (value : String) : Except PyErr String :=
  if isValidPhone value then .ok value
  else .error (.valueError "Phone number must contain exactly 10 digits")

structure Birthday where
  date : PyDate
  value : String
deriving DecidableEq, Repr

/-- Model of `Birthday.__init__`: `strptime(value.strip(), "%d.%m.%Y")`, storing
the parsed date and its canonical re-formatted string; any parse or
calendar failure becomes the single `ValueError` below. -/
def mkBirthday (value : String) : Except PyErr Birthday :=
  match pyStrptimeDate (pyStrip value) with
  | some d => .ok ⟨d, d.strftimeDMY⟩
  | none => .error (.valueError "Invalid date format. Use DD.MM.YYYY")

/-! ## Records -/

structure Record where
  name : String
  phones : List String
  birthday : Option Birthday
deriving DecidableEq, Repr

/-- Model of `Record.__init__` (validates the name). -/
def mkRecord (name : String) : Except PyErr Record := do
  let n ← mkName name
  .ok ⟨n, [], none⟩

/-- Model of `Record.add_phone`: validate, reject if an equal stored value exists,
else append. -/
def Record.add_phone (r : Record) (phone : String) : Except PyErr Record := do
  let p ← mkPhone phone
  if r.phones.any (fun q => q == p) then
    .error (.valueError ("Phone number " ++ phone ++ " already exists for this contact"))
  else
    .ok { r with phones := r.phones ++ [p] }

/-- Remove the first occurrence of `v`; `none` if absent. -/
def removeFirst (v : String) : List String → Option (List String)
  | [] => none
  | q :: l => if q == v then some l else (removeFirst v l).map (q :: ·)

/-- Model of `Record.remove_phone`: removes the first phone with the exact stored
value, or raises. -/
def Record.remove_phone (r : Record) (phone : String) : Except PyErr Record :=
  match removeFirst phone r.phones with
  | some l => .ok { r with phones := l }
  | none => .error (.valueError ("Phone number " ++ phone ++ " not found"))

/-- Replace the first occurrence of `old` by `nw`; `none` if absent. -/
def replaceFirst (old nw : String) : List String → Option (List String)
  | [] => none
  | q :: l => if q == old then some (nw :: l) else (replaceFirst old nw l).map (q :: ·)

/-- Model of `Record.edit_phone`: validates the new value first, then replaces the
first phone equal to `old` in place, or raises if absent. -/
def Record.edit_phone (r : Record) (old nw : String) : Except PyErr Record := do
  let p ← mkPhone nw
  match replaceFirst old p r.phones with
  | some l => .ok { r with phones := l }
  | none => .error (.valueError ("Phone number " ++ old ++ " not found"))

/-- Model of `Record.find_phone`: exact-match lookup, no error on miss. -/
def Record.find_phone (r : Record) (phone : String) : Option String :=
  r.phones.find? (fun q => q == phone)

/-- Model of `Record.add_birthday`: validates and sets/overwrites the birthday. -/
def Record.add_birthday (r : Record) (birthday : String) : Except PyErr Record := do
  let b ← mkBirthday birthday
  .ok { r with birthday := some b }

/-- Model of `Record.days_to_birthday` with `datetime.now().date()` passed in
explicitly as `today`.  The `date.replace` calls can raise. -/
def Record.days_to_birthday (r : Record) (today : PyDate) : Except PyErr (Option Int) :=
  match r.birthday with
  | none => .ok none
  | some b => do
    let bty ← b.date.replaceYear today.year
    let bty ← if bty.pyLt today then b.date.replaceYear (today.year + 1) else pure bty
    .ok (some ((bty.toOrdinal : Int) - (today.toOrdinal : Int)))

/-! ## Address book

`AddressBook` is a `UserDict`; a Python `dict` preserves insertion order,
so `data` is an association list in insertion order with unique keys. -/

structure AddressBook where
  data : List (String × Record)
deriving DecidableEq, Repr

/-- Model of `AddressBook.add_record`: rejects an existing name, else inserts. -/
def AddressBook.add_record (book : AddressBook) (record : Record) :
    Except PyErr AddressBook :=
  if book.data.any (fun kv => kv.1 == record.name) then
    .error (.valueError ("Contact " ++ record.name ++ " already exists"))
  else
    .ok ⟨book.data ++ [(record.name, record)]⟩

/-- Model of `AddressBook.find`: `self.data.get(name)`. -/
def AddressBook.find (book : AddressBook) (name : String) : Option Record :=
  book.data.lookup name

/-- Delete the entry with the given key, preserving the rest. -/
def removeKey (name : String) :
    List (String × Record) → List (String × Record)
  | [] => []
  | kv :: l => if kv.1 == name then l else kv :: removeKey name l

/-- Model of `AddressBook.delete`: raises if absent, else removes the entry. -/
def AddressBook.delete (book : AddressBook) (name : String) :
    Except PyErr AddressBook :=
  if book.data.any (fun kv => kv.1 == name) then
    .ok ⟨removeKey name book.data⟩
  else
    .error (.valueError ("Contact " ++ name ++ " not found"))

/-- One element of the list returned by `get_upcoming_birthdays`:
a dict with the contact name and the formatted congratulation date. -/
structure BEntry where
  name : String
  congratulation_date : String
deriving DecidableEq, Repr

/-- The body of the `for record in self.data.values()` loop of
`get_upcoming_birthdays`, for one record: `none` when the record
contributes no entry, raising when `date.replace` raises. -/
def processRecord (today : PyDate) (r : Record) : Except PyErr (Option BEntry) :=
  match r.birthday with
  | none => .ok none
  | some b => do
    let bty ← b.date.replaceYear today.year
    let bty ← if bty.pyLt today then b.date.replaceYear (today.year + 1) else pure bty
    let daysUntil : Int := (bty.toOrdinal : Int) - (today.toOrdinal : Int)
    if 0 ≤ daysUntil ∧ daysUntil ≤ 7 then
      let congrat := if bty.pyWeekday ≥ 5 then bty.addDays (7 - bty.pyWeekday) else bty
      .ok (some ⟨r.name, congrat.strftimeDMY⟩)
    else
      .ok none

/-- The whole loop of `get_upcoming_birthdays`: entries are appended in
record order; the first raising record aborts the computation. -/
def collectUpcoming (today : PyDate) : List Record → Except PyErr (List BEntry)
  | [] => .ok []
  | r :: rs => do
    let e ← processRecord today r
    let rest ← collectUpcoming today rs
    .ok (match e with | some x => x :: rest | none => rest)

/-- The sort key `datetime.strptime(x["congratulation_date"], "%d.%m.%Y")`,
as the ordinal of the parsed date.  Every string the loop produces is a
`strftime` output and parses back; on an unparsable string Python's sort
would raise, which the program never reaches, so the `none` branch is an
arbitrary default. -/
def entryKey (e : BEntry) : Nat :=
  match pyStrptimeDate e.congratulation_date with
  | some d => d.toOrdinal
  | none => 0

/-- Model of `AddressBook.get_upcoming_birthdays` with `datetime.now().date()`
passed in as `today`.  Python's `list.sort` is a stable sort and a stable
sort's output is unique, so it is modelled by insertion sort. -/
def AddressBook.get_upcoming_birthdays (book : AddressBook) (today : PyDate) :
    Except PyErr (List BEntry) := do
  let l ← collectUpcoming today (book.data.map Prod.snd)
  .ok (l.insertionSort (fun a b => entryKey a ≤ entryKey b))

/-! ## Persistence layer

The byte stream written by `pickle.dump` is modelled abstractly: the
bytes of a pickled Python value are represented by the value itself
(pickling an `AddressBook` and unpickling the resulting bytes yields an
equal object — the fidelity contract of the `pickle` protocol for this
object graph), and bytes that `pickle.load` cannot decode by `junk`.
The file system records which directories exist, each file's content,
and which paths raise on open-for-read / open-for-write (permissions,
disk errors). -/

inductive PickledValue where
  | addressBook (book : AddressBook)
  | otherObject
deriving DecidableEq

inductive FileContent where
  | pickled (v : PickledValue)
  | junk
deriving DecidableEq

structure FileSystem where
  dirs : List String
  files : List (String × FileContent)
  readFails : List String
  writeFails : List String
deriving DecidableEq

/-- The directory component of a path (`""` is the working directory,
which always exists). -/
def parentDir (path : String) : String :=
  ⟨(((path.data.reverse.dropWhile (· ≠ '/')).drop 1)).reverse⟩

def dirExists (fs : FileSystem) (d : String) : Bool :=
  d == "" || fs.dirs.contains d

/-- Write or overwrite one file. -/
def setFile (path : String) (c : FileContent) :
    List (String × FileContent) → List (String × FileContent)
  | [] => [(path, c)]
  | kv :: l => if kv.1 == path then (path, c) :: l else kv :: setFile path c l

/-- Model of `save_data(book, filename)`: `open(filename, "wb")` raises
`FileNotFoundError` (an `OSError`) when the parent directory does not
exist — the function never creates directories — and `OSError`/`IOError`
on permission or disk failures; every exception is caught, printed and
turned into `False`.  The result is
(returned flag, in-memory book after the call, file system after the call). -/
def save_data (book : AddressBook) (fs : FileSystem) (filename : String) :
    Bool × AddressBook × FileSystem :=
  if dirExists fs (parentDir filename) && !fs.writeFails.contains filename then
    (true, book,
      { fs with files := setFile filename (.pickled (.addressBook book)) fs.files })
  else
    (false, book, fs)

/-- Model of `load_data(filename)`: returns the loaded book, or a fresh empty one
on a missing file (silently), and on read, decode, or wrong-type
failures (with a printed diagnostic, the second component). -/
def load_data (fs : FileSystem) (filename : String) : AddressBook × Bool :=
  match fs.files.lookup filename with
  | none => (⟨[]⟩, false)
  | some c =>
    if fs.readFails.contains filename then (⟨[]⟩, true)
    else
      match c with
      | .pickled (.addressBook book) => (book, false)
      | .pickled .otherObject => (⟨[]⟩, true)
      | .junk => (⟨[]⟩, true)

/-! ## Helper lemmas -/

/-- Reduction of the `Except` monad's bind on a success value. -/
theorem exbind_ok {α β : Type} (a : α) (f : α → Except PyErr β) :
    (Bind.bind (Except.ok a) f : Except PyErr β) = f a := rfl

/-- Reduction of the `Except` monad's bind on a `pure` value. -/
theorem exbind_pure {α β : Type} (a : α) (f : α → Except PyErr β) :
    (Bind.bind (Pure.pure a) f : Except PyErr β) = f a := rfl

/-- Reduction of the `Except` monad's bind on an error value. -/
theorem exbind_error {α β : Type} (e : PyErr) (f : α → Except PyErr β) :
    (Bind.bind (Except.error e) f : Except PyErr β) = Except.error e := rfl

theorem mkPhone_ok_of_valid {p : String} (h : isValidPhone p = true) :
    mkPhone p = .ok p := by
  unfold mkPhone
  rw [if_pos h]

theorem mkPhone_error_of_invalid {p : String} (h : isValidPhone p = false) :
    mkPhone p = .error (.valueError "Phone number must contain exactly 10 digits") := by
  unfold mkPhone
  rw [if_neg]
  simp [h]

theorem isValidPhone_iff (s : String) :
    isValidPhone s = true ↔ s.data.countP pyIsDigit = 10 := by
  unfold isValidPhone pyStrIsdigit pySubNonDigits
  rw [List.countP_eq_length_filter]
  constructor
  · intro h
    simp only [Bool.and_eq_true, beq_iff_eq] at h
    exact h.1
  · intro h
    simp only [Bool.and_eq_true, beq_iff_eq]
    refine ⟨h, ?_, ?_⟩
    · have hne : s.data.filter pyIsDigit ≠ [] := by
        intro hc
        rw [hc] at h
        simp at h
      simpa [List.isEmpty_iff] using hne
    · rw [List.all_eq_true]
      intro c hc
      exact List.of_mem_filter hc

theorem replaceFirst_eq_none_iff (old nw : String) (l : List String) :
    replaceFirst old nw l = none ↔ old ∉ l := by
  induction l with
  | nil => simp [replaceFirst]
  | cons q l ih =>
    simp only [replaceFirst, List.mem_cons]
    by_cases h : q = old
    · subst h
      simp
    · rw [if_neg (by simpa using h)]
      simp [Option.map_eq_none', ih, h, Ne.symm h]

theorem replaceFirst_first (old nw : String) (l : List String) :
    ∀ (i : Nat) (h : i < l.length), l.get ⟨i, h⟩ = old →
      (∀ j (hj : j < l.length), j < i → l.get ⟨j, hj⟩ ≠ old) →
      replaceFirst old nw l = some (l.set i nw) := by
  induction l with
  | nil => intro i h; exact absurd h (by simp)
  | cons q l ih =>
    intro i h hget hfirst
    match i with
    | 0 =>
      simp only [List.get] at hget
      subst hget
      simp [replaceFirst]
    | i + 1 =>
      have hq : q ≠ old := by
        have := hfirst 0 (by simp) (Nat.succ_pos i)
        simpa using this
      have hqb : (q == old) = false := by simpa using hq
      have hstep : ∀ j (hj : j < l.length), j < i → l.get ⟨j, hj⟩ ≠ old := by
        intro j hj hji
        have := hfirst (j + 1) (by simpa using hj) (Nat.succ_lt_succ hji)
        simpa using this
      simp only [replaceFirst, hqb, Bool.false_eq_true, if_false]
      rw [ih i (by simpa using h) (by simpa using hget) hstep]
      rfl

theorem removeFirst_sublist (v : String) (l : List String) :
    ∀ l', removeFirst v l = some l' → List.Sublist l' l := by
  induction l with
  | nil => intro l' h; simp [removeFirst] at h
  | cons q l ih =>
    intro l' h
    simp only [removeFirst] at h
    by_cases hq : (q == v) = true
    · rw [if_pos hq] at h
      cases h
      exact List.sublist_cons_self q l
    · rw [if_neg hq] at h
      match hrf : removeFirst v l with
      | none => rw [hrf] at h; cases h
      | some l'' =>
        rw [hrf] at h
        cases h
        exact (ih l'' hrf).cons₂ q

/-! ## Claim theorems -/

/-- C9: `validate_phone` succeeds iff exactly 10 digit characters remain
after stripping non-digit characters, and on success the stored Phone
value is the original raw string; otherwise it fails with the
`ValueError`. -/
theorem C9_validate_phone (s : String) :
    ((∃ v, mkPhone s = .ok v) ↔ s.data.countP pyIsDigit = 10) ∧
    (∀ v, mkPhone s = .ok v → v = s) ∧
    (s.data.countP pyIsDigit ≠ 10 →
      mkPhone s = .error (.valueError "Phone number must contain exactly 10 digits")) := by
  unfold mkPhone
  refine ⟨?_, ?_, ?_⟩
  · rw [← isValidPhone_iff]
    constructor
    · rintro ⟨v, hv⟩
      by_contra h
      rw [Bool.not_eq_true] at h
      rw [h] at hv
      simp at hv
    · intro h
      rw [if_pos h]
      exact ⟨s, rfl⟩
  · intro v hv
    split at hv
    · cases hv; rfl
    · cases hv
  · intro h
    have hfalse : isValidPhone s = false := by
      rw [Bool.eq_false_iff]
      intro hc
      exact h ((isValidPhone_iff s).mp hc)
    rw [hfalse]
    simp

/-- C9 witness: `"050-123-4567"` carries exactly 10 digits, is accepted,
and the stored value is the raw string with its formatting. -/
theorem C9_validate_phone_witness :
    (∃ v, mkPhone "050-123-4567" = .ok v) ∧
    (∀ v, mkPhone "050-123-4567" = .ok v → v = "050-123-4567") :=
  ⟨(C9_validate_phone "050-123-4567").1.mpr (by decide),
   fun v hv => (C9_validate_phone "050-123-4567").2.1 v hv⟩

/-- C7: `edit_phone` validates the new raw value first (an invalid new
value is rejected with the validation error before anything else); a
missing old value fails with the not-found `ValueError` and produces no
record change; a present old value is replaced at its first position,
the rest of the ordered list unchanged. -/
theorem C7_edit_phone (r : Record) (old nw : String) :
    (isValidPhone nw = false →
      r.edit_phone old nw =
        .error (.valueError "Phone number must contain exactly 10 digits")) ∧
    (isValidPhone nw = true → old ∉ r.phones →
      r.edit_phone old nw =
        .error (.valueError ("Phone number " ++ old ++ " not found"))) ∧
    (isValidPhone nw = true →
      ∀ i (h : i < r.phones.length), r.phones.get ⟨i, h⟩ = old →
        (∀ j (hj : j < r.phones.length), j < i → r.phones.get ⟨j, hj⟩ ≠ old) →
        r.edit_phone old nw = .ok { r with phones := r.phones.set i nw }) := by
  refine ⟨?_, ?_, ?_⟩
  · intro hinv
    unfold Record.edit_phone
    rw [mkPhone_error_of_invalid hinv, exbind_error]
  · intro hval hmem
    unfold Record.edit_phone
    rw [mkPhone_ok_of_valid hval, exbind_ok,
      (replaceFirst_eq_none_iff old nw r.phones).mpr hmem]
  · intro hval i h hget hfirst
    unfold Record.edit_phone
    rw [mkPhone_ok_of_valid hval, exbind_ok,
      replaceFirst_first old nw r.phones i h hget hfirst]

/-- C7 witness: replacing the second phone of a concrete record. -/
theorem C7_edit_phone_witness :
    Record.edit_phone ⟨"Ann", ["1112223334", "4445556667"], none⟩ "4445556667" "9998887776"
      = .ok ⟨"Ann", ["1112223334", "9998887776"], none⟩ := by
  have h := (C7_edit_phone ⟨"Ann", ["1112223334", "4445556667"], none⟩
      "4445556667" "9998887776").2.2 (by decide) 1 (by decide) (by decide)
      (fun j hj hji => by
        have hj0 : j = 0 := by omega
        subst hj0
        show "1112223334" ≠ "4445556667"
        decide)
  simpa using h

/-- C6 counterexample: `add_phone` compares raw stored values, not
normalized digit strings, so a second spelling of the same 10 digits is
accepted and the record then holds two phones equal by normalized
value. -/
theorem C6_counterexample :
    Record.add_phone ⟨"Ann", ["0501234567"], none⟩ "050-123-45-67"
      = .ok ⟨"Ann", ["0501234567", "050-123-45-67"], none⟩ ∧
    pySubNonDigits "050-123-45-67" = pySubNonDigits "0501234567" := by
  constructor
  · rfl
  · rfl

/-- C6 amended: the uniqueness invariant the code enforces is on raw
stored values: `add_phone` rejects a raw-equal duplicate with the
`ValueError` and otherwise preserves raw-value distinctness, as does
`remove_phone`; `edit_phone` performs no duplicate check and can break
even raw-value distinctness (final conjunct). -/
theorem C6_raw_value_nodup (r : Record) (hnd : r.phones.Nodup) :
    (∀ p r', r.add_phone p = .ok r' → r'.phones.Nodup) ∧
    (∀ p, isValidPhone p = true → p ∈ r.phones →
      r.add_phone p =
        .error (.valueError ("Phone number " ++ p ++ " already exists for this contact"))) ∧
    (∀ p r', r.remove_phone p = .ok r' → r'.phones.Nodup) ∧
    (Record.edit_phone ⟨"Bob", ["1234567890", "0987654321"], none⟩ "0987654321" "1234567890"
      = .ok ⟨"Bob", ["1234567890", "1234567890"], none⟩ ∧
      ¬ (["1234567890", "1234567890"] : List String).Nodup) := by
  refine ⟨?_, ?_, ?_, by rfl, by decide⟩
  · intro p r' h
    unfold Record.add_phone at h
    by_cases hval : isValidPhone p = true
    · rw [mkPhone_ok_of_valid hval, exbind_ok] at h
      split at h
      · cases h
      · rename_i hany
        cases h
        have hp : p ∉ r.phones := by
          intro hmem
          exact hany (List.any_eq_true.mpr ⟨p, hmem, by simp⟩)
        rw [List.nodup_append]
        exact ⟨hnd, List.nodup_singleton _, by
          intro a ha hb
          rw [List.mem_singleton] at hb
          subst hb
          exact hp ha⟩
    · rw [mkPhone_error_of_invalid (Bool.not_eq_true _ ▸ hval), exbind_error] at h
      cases h
  · intro p hval hmem
    unfold Record.add_phone
    rw [mkPhone_ok_of_valid hval, exbind_ok,
      if_pos (List.any_eq_true.mpr ⟨p, hmem, by simp⟩)]
  · intro p r' h
    unfold Record.remove_phone at h
    match hrf : removeFirst p r.phones with
    | none => rw [hrf] at h; cases h
    | some l =>
      rw [hrf] at h
      cases h
      exact hnd.sublist (removeFirst_sublist p r.phones l hrf)

/-- C6 amended witness: a record with two distinct raw values accepts a
third and stays raw-value-duplicate-free. -/
theorem C6_raw_value_nodup_witness :
    ∃ r', Record.add_phone ⟨"Bob", ["1234567890", "0987654321"], none⟩ "5556667778"
      = .ok r' ∧ r'.phones.Nodup := by
  have h := (C6_raw_value_nodup ⟨"Bob", ["1234567890", "0987654321"], none⟩ (by decide)).1
    "5556667778" ⟨"Bob", ["1234567890", "0987654321", "5556667778"], none⟩ (by rfl)
  exact ⟨_, by rfl, h⟩

/-! ## Persistence lemmas and the validity invariant -/

theorem lookup_setFile (path : String) (c : FileContent) :
    ∀ files, (setFile path c files).lookup path = some c := by
  intro files
  induction files with
  | nil => simp [setFile, List.lookup]
  | cons kv l ih =>
    simp only [setFile]
    by_cases h : (kv.1 == path) = true
    · rw [if_pos h]
      simp [List.lookup]
    · rw [if_neg h]
      simp only [List.lookup]
      have hne : kv.1 ≠ path := fun hc => h (beq_iff_eq.mpr hc)
      rw [beq_eq_false_iff_ne.mpr (Ne.symm hne)]
      exact ih

def validBirthdayOpt : Option Birthday → Bool
  | none => true
  | some b => b.date.isValid && b.value == b.date.strftimeDMY

/-- The validation invariants of spec sections 4.1–4.3 for a whole store:
unique keys each equal to its record's name, validated nonempty names,
validated pairwise-distinct phones, validated birthdays. -/
def ValidStore (book : AddressBook) : Prop :=
  (book.data.map Prod.fst).Nodup ∧
  ∀ kv ∈ book.data, kv.1 = kv.2.name ∧ mkName kv.2.name = .ok kv.2.name ∧
    (∀ p ∈ kv.2.phones, isValidPhone p = true) ∧ kv.2.phones.Nodup ∧
    validBirthdayOpt kv.2.birthday = true

/-- C1: loading the file produced by a successful save of a valid Store
yields a Store equal to it field by field (same contacts, same ordered
phone lists, same structured birthdays), with no diagnostic. -/
theorem C1_save_load_roundtrip (book : AddressBook) (fs : FileSystem) (filename : String)
    (hvalid : ValidStore book)
    (hsave : (save_data book fs filename).1 = true)
    (hread : ((save_data book fs filename).2.2).readFails.contains filename = false) :
    load_data (save_data book fs filename).2.2 filename = (book, false) := by
  unfold save_data at *
  split at hsave
  · rename_i hcond
    simp only [if_pos hcond] at hread ⊢
    unfold load_data
    simp only [lookup_setFile]
    rw [hread]
    simp
  · simp at hsave

/-- C1 witness: a Store with several contacts, several phones each, and
birthdays, saved into an existing directory, loads back identically;
a successful save and a readable file are the discharged hypotheses. -/
theorem C1_save_load_roundtrip_witness :
    load_data
      (save_data
        ⟨[("Ann", ⟨"Ann", ["0501234567", "0671112233"], some ⟨⟨1990, 6, 15⟩, "15.06.1990"⟩⟩),
          ("Bob", ⟨"Bob", ["0991234567"], some ⟨⟨1988, 12, 1⟩, "01.12.1988"⟩⟩)]⟩
        ⟨["data"], [], [], []⟩ "data/addressbook.pkl").2.2 "data/addressbook.pkl"
      = (⟨[("Ann", ⟨"Ann", ["0501234567", "0671112233"], some ⟨⟨1990, 6, 15⟩, "15.06.1990"⟩⟩),
          ("Bob", ⟨"Bob", ["0991234567"], some ⟨⟨1988, 12, 1⟩, "01.12.1988"⟩⟩)]⟩, false) :=
  C1_save_load_roundtrip _ _ _ (by constructor <;> decide) (by rfl) (by rfl)

/-- C2: `load_data` is total (it returns a Store, never propagating a
failure): a missing file yields a fresh empty Store with no diagnostic;
an unreadable file, undecodable bytes, or a decoded value that is not an
AddressBook each yield a diagnostic and a fresh empty Store. -/
theorem C2_load_total (fs : FileSystem) (filename : String) :
    (fs.files.lookup filename = none → load_data fs filename = (⟨[]⟩, false)) ∧
    (∀ c, fs.files.lookup filename = some c → fs.readFails.contains filename = true →
      load_data fs filename = (⟨[]⟩, true)) ∧
    (fs.readFails.contains filename = false →
      fs.files.lookup filename = some FileContent.junk →
      load_data fs filename = (⟨[]⟩, true)) ∧
    (fs.readFails.contains filename = false →
      fs.files.lookup filename = some (.pickled .otherObject) →
      load_data fs filename = (⟨[]⟩, true)) ∧
    (∀ book, fs.readFails.contains filename = false →
      fs.files.lookup filename = some (.pickled (.addressBook book)) →
      load_data fs filename = (book, false)) := by
  refine ⟨?_, ?_, ?_, ?_, ?_⟩
  · intro h
    unfold load_data
    rw [h]
  · intro c hc hr
    unfold load_data
    simp only [hc]
    rw [hr]
    simp
  · intro hr hc
    unfold load_data
    simp only [hc]
    rw [hr]
    simp
  · intro hr hc
    unfold load_data
    simp only [hc]
    rw [hr]
    simp
  · intro book hr hc
    unfold load_data
    simp only [hc]
    rw [hr]
    simp

/-- C2 witness: a missing file and a corrupted file, both handled
without an exception. -/
theorem C2_load_total_witness :
    load_data ⟨[], [], [], []⟩ "addressbook.pkl" = (⟨[]⟩, false) ∧
    load_data ⟨[], [("addressbook.pkl", FileContent.junk)], [], []⟩ "addressbook.pkl"
      = (⟨[]⟩, true) :=
  ⟨(C2_load_total ⟨[], [], [], []⟩ "addressbook.pkl").1 (by rfl),
   (C2_load_total ⟨[], [("addressbook.pkl", FileContent.junk)], [], []⟩
      "addressbook.pkl").2.2.1 (by rfl) (by rfl)⟩

/-- C3: `save_data` never lets an exception past its boundary (it is a
total function into a flag): the in-memory Store is returned unchanged in
every case, every I/O failure yields the failure flag `false` with the
file system untouched, and a failure-free write yields `true`. -/
theorem C3_save_contract (book : AddressBook) (fs : FileSystem) (filename : String) :
    ((save_data book fs filename).2.1 = book) ∧
    ((save_data book fs filename).1 = false → (save_data book fs filename).2.2 = fs) ∧
    ((dirExists fs (parentDir filename) = false ∨ fs.writeFails.contains filename = true) →
      (save_data book fs filename).1 = false) ∧
    (dirExists fs (parentDir filename) = true → fs.writeFails.contains filename = false →
      (save_data book fs filename).1 = true) := by
  refine ⟨?_, ?_, ?_, ?_⟩
  · unfold save_data
    split <;> rfl
  · intro h
    unfold save_data at h ⊢
    by_cases hcond : (dirExists fs (parentDir filename) && !fs.writeFails.contains filename) = true
    · rw [if_pos hcond] at h
      simp at h
    · rw [if_neg hcond]
  · intro h
    unfold save_data
    rw [if_neg]
    intro hc
    rw [Bool.and_eq_true] at hc
    rcases h with h | h
    · rw [h] at hc
      exact Bool.false_ne_true hc.1
    · rw [h] at hc
      simp at hc
  · intro h1 h2
    unfold save_data
    rw [if_pos (by rw [h1, h2]; rfl)]

/-- C3 witness: a failing save (file open raises) leaves everything
unchanged and returns `False`; a normal save returns `True`; the
in-memory book is unchanged in both cases. -/
theorem C3_save_contract_witness :
    ((save_data ⟨[]⟩ ⟨[], [], [], ["addressbook.pkl"]⟩ "addressbook.pkl").1 = false ∧
      (save_data ⟨[]⟩ ⟨[], [], [], ["addressbook.pkl"]⟩ "addressbook.pkl").2.2
        = ⟨[], [], [], ["addressbook.pkl"]⟩) ∧
    (save_data ⟨[]⟩ ⟨[], [], [], []⟩ "addressbook.pkl").1 = true ∧
    (save_data ⟨[]⟩ ⟨[], [], [], []⟩ "addressbook.pkl").2.1 = ⟨[]⟩ :=
  ⟨⟨(C3_save_contract ⟨[]⟩ ⟨[], [], [], ["addressbook.pkl"]⟩ "addressbook.pkl").2.2.1
      (Or.inr (by rfl)),
    (C3_save_contract ⟨[]⟩ ⟨[], [], [], ["addressbook.pkl"]⟩ "addressbook.pkl").2.1
      ((C3_save_contract ⟨[]⟩ ⟨[], [], [], ["addressbook.pkl"]⟩ "addressbook.pkl").2.2.1
        (Or.inr (by rfl)))⟩,
   (C3_save_contract ⟨[]⟩ ⟨[], [], [], []⟩ "addressbook.pkl").2.2.2 (by rfl) (by rfl),
   (C3_save_contract ⟨[]⟩ ⟨[], [], [], []⟩ "addressbook.pkl").1⟩

/-- C4 counterexample: `save_data` opens the destination directly and
never creates directories; with the parent directory `"data"` missing,
the save fails and the file system — in particular its set of
directories — is unchanged, where the claim asserts the directories
would be created and the save would succeed. -/
theorem C4_counterexample :
    (save_data ⟨[]⟩ ⟨[], [], [], []⟩ "data/addressbook.pkl").1 = false ∧
    (save_data ⟨[]⟩ ⟨[], [], [], []⟩ "data/addressbook.pkl").2.2.dirs = [] := by
  constructor <;> rfl

/-- C4 amended: `save_data` does not create missing parent directories;
for every destination whose parent directory does not exist, the open
raises `FileNotFoundError`, which is caught, and the save returns the
failure flag with the file system (directories included) unchanged. -/
theorem C4_no_mkdir (book : AddressBook) (fs : FileSystem) (filename : String)
    (h : dirExists fs (parentDir filename) = false) :
    save_data book fs filename = (false, book, fs) := by
  unfold save_data
  rw [if_neg]
  intro hc
  rw [Bool.and_eq_true, h] at hc
  exact Bool.false_ne_true hc.1

/-- C4 amended witness. -/
theorem C4_no_mkdir_witness :
    save_data ⟨[]⟩ ⟨["other"], [], [], []⟩ "data/addressbook.pkl"
      = (false, ⟨[]⟩, ⟨["other"], [], [], []⟩) :=
  C4_no_mkdir ⟨[]⟩ ⟨["other"], [], [], []⟩ "data/addressbook.pkl" (by rfl)

/-! ## The 29 February failure (C10) -/

theorem replaceYear_feb29_error (b : PyDate) (y : Nat)
    (hm : b.month = 2) (hd : b.day = 29) (hleap : isLeapYear y = false) :
    b.replaceYear y = .error (.valueError "day is out of range for month") := by
  unfold PyDate.replaceYear
  rw [if_neg]
  intro hc
  simp only [PyDate.isValid, hm, hd, Bool.and_eq_true, decide_eq_true_eq] at hc
  have h28 : daysInMonth y 2 = 28 := by
    unfold daysInMonth
    rw [if_pos rfl, if_neg (by rw [hleap]; exact Bool.false_ne_true)]
  rw [h28] at hc
  omega

theorem processRecord_feb29_error (today : PyDate) (r : Record) (b : Birthday)
    (hb : r.birthday = some b) (hm : b.date.month = 2) (hd : b.date.day = 29)
    (hleap : isLeapYear today.year = false) :
    processRecord today r = .error (.valueError "day is out of range for month") := by
  unfold processRecord
  simp only [hb]
  rw [replaceYear_feb29_error b.date today.year hm hd hleap, exbind_error]

theorem collectUpcoming_error_of_mem (today : PyDate) (r : Record) (e : PyErr) :
    ∀ l : List Record, r ∈ l → processRecord today r = .error e →
      ∃ e', collectUpcoming today l = .error e' := by
  intro l hmem herr
  induction l with
  | nil => cases hmem
  | cons x xs ih =>
    rcases List.mem_cons.mp hmem with hx | hx
    · subst hx
      exact ⟨e, by rw [collectUpcoming, herr, exbind_error]⟩
    · match hp : processRecord today x with
      | .error e'' => exact ⟨e'', by rw [collectUpcoming, hp, exbind_error]⟩
      | .ok v =>
        obtain ⟨e', he'⟩ := ih hx
        exact ⟨e', by rw [collectUpcoming, hp, exbind_ok, he', exbind_error]⟩

/-- C10: for a record whose birthday is 29 February, projecting the
birthday into a non-leap year makes `date.replace` raise `ValueError`,
so `days_to_birthday` raises, and `get_upcoming_birthdays` on any book
containing such a record raises as well: these operations are not total
over valid Records. -/
theorem C10_feb29_raises (r : Record) (b : Birthday) (today : PyDate)
    (hb : r.birthday = some b) (hm : b.date.month = 2) (hd : b.date.day = 29)
    (hleap : isLeapYear today.year = false) :
    r.days_to_birthday today = .error (.valueError "day is out of range for month") ∧
    (∀ book : AddressBook, r ∈ book.data.map Prod.snd →
      ∃ e, book.get_upcoming_birthdays today = .error e) := by
  constructor
  · unfold Record.days_to_birthday
    simp only [hb]
    rw [replaceYear_feb29_error b.date today.year hm hd hleap, exbind_error]
  · intro book hmem
    obtain ⟨e', he'⟩ := collectUpcoming_error_of_mem today r _
      (book.data.map Prod.snd) hmem
      (processRecord_feb29_error today r b hb hm hd hleap)
    exact ⟨e', by unfold AddressBook.get_upcoming_birthdays; rw [he', exbind_error]⟩

/-- C10 witness: a contact born 29.02.2020, with today in the non-leap
year 2023: both operations raise. -/
theorem C10_feb29_raises_witness :
    Record.days_to_birthday ⟨"Leap", [], some ⟨⟨2020, 2, 29⟩, "29.02.2020"⟩⟩ ⟨2023, 6, 10⟩
      = .error (.valueError "day is out of range for month") ∧
    ∃ e, AddressBook.get_upcoming_birthdays
      ⟨[("Leap", ⟨"Leap", [], some ⟨⟨2020, 2, 29⟩, "29.02.2020"⟩⟩)]⟩ ⟨2023, 6, 10⟩
      = .error e := by
  have h := C10_feb29_raises ⟨"Leap", [], some ⟨⟨2020, 2, 29⟩, "29.02.2020"⟩⟩
    ⟨⟨2020, 2, 29⟩, "29.02.2020"⟩ ⟨2023, 6, 10⟩ rfl rfl rfl (by decide)
  exact ⟨h.1, h.2 ⟨[("Leap", ⟨"Leap", [], some ⟨⟨2020, 2, 29⟩, "29.02.2020"⟩⟩)]⟩ (by decide)⟩

/-! ## Digit and date formatting lemmas -/

theorem pyIsDigit_digitChar {a : Nat} (h : a < 10) : pyIsDigit (digitChar a) = true := by
  interval_cases a <;> decide

theorem digitVal_digitChar {a : Nat} (h : a < 10) : digitVal (digitChar a) = a := by
  interval_cases a <;> decide

theorem pyIsSpace_digitChar {a : Nat} (h : a < 10) : pyIsSpace (digitChar a) = false := by
  interval_cases a <;> decide

theorem daysInMonth_le_31 (y m : Nat) : daysInMonth y m ≤ 31 := by
  unfold daysInMonth
  split
  · split <;> omega
  · split <;> omega

theorem daysInMonth_pos (y m : Nat) : 1 ≤ daysInMonth y m := by
  unfold daysInMonth
  split
  · split <;> omega
  · split <;> omega

theorem isValid_unpack {d : PyDate} (h : d.isValid = true) :
    1 ≤ d.year ∧ d.year ≤ 9999 ∧ 1 ≤ d.month ∧ d.month ≤ 12 ∧ 1 ≤ d.day ∧ d.day ≤ 31 := by
  simp only [PyDate.isValid, Bool.and_eq_true, decide_eq_true_eq] at h
  have := daysInMonth_le_31 d.year d.month
  omega

theorem parseYear4_fmt4 (y : Nat) (hy : y ≤ 9999) :
    parseYear4 (fmt4 y) = some (y, []) := by
  have h1 : y / 1000 % 10 < 10 := Nat.mod_lt _ (by omega)
  have h2 : y / 100 % 10 < 10 := Nat.mod_lt _ (by omega)
  have h3 : y / 10 % 10 < 10 := Nat.mod_lt _ (by omega)
  have h4 : y % 10 < 10 := Nat.mod_lt _ (by omega)
  have hrec : 1000 * (y / 1000 % 10) + 100 * (y / 100 % 10) + 10 * (y / 10 % 10) + y % 10
      = y := by omega
  simp only [fmt4, parseYear4, pyIsDigit_digitChar h1, pyIsDigit_digitChar h2,
    pyIsDigit_digitChar h3, pyIsDigit_digitChar h4, digitVal_digitChar h1,
    digitVal_digitChar h2, digitVal_digitChar h3, digitVal_digitChar h4,
    Bool.and_self, if_true, hrec]

theorem parseTailDMY_fmt (dd mm y : Nat) (hy : y ≤ 9999) :
    parseTailDMY dd mm ('.' :: fmt4 y) = some (dd, mm, y) := by
  unfold parseTailDMY
  simp only [parseDot, parseYear4_fmt4 y hy, Option.some_bind, List.isEmpty_nil, if_true]

theorem parseMonth2_fmt2 (m : Nat) (rest : List Char) (hm1 : 1 ≤ m) (hm2 : m ≤ 12) :
    parseMonth2 (fmt2 m ++ rest) = some (m, rest) := by
  have h1 : m / 10 % 10 < 10 := Nat.mod_lt _ (by omega)
  have h2 : m % 10 < 10 := Nat.mod_lt _ (by omega)
  have hrec : 10 * (m / 10 % 10) + m % 10 = m := by omega
  simp only [fmt2, List.cons_append, List.nil_append, parseMonth2,
    pyIsDigit_digitChar h1, pyIsDigit_digitChar h2,
    digitVal_digitChar h1, digitVal_digitChar h2, hrec]
  rw [if_pos (by simp [hm1, hm2])]

theorem parseDay2_fmt2 (d : Nat) (rest : List Char) (hd1 : 1 ≤ d) (hd2 : d ≤ 31) :
    parseDay2 (fmt2 d ++ rest) = some (d, rest) := by
  have h1 : d / 10 % 10 < 10 := Nat.mod_lt _ (by omega)
  have h2 : d % 10 < 10 := Nat.mod_lt _ (by omega)
  have hrec : 10 * (d / 10 % 10) + d % 10 = d := by omega
  simp only [fmt2, List.cons_append, List.nil_append, parseDay2,
    pyIsDigit_digitChar h1, pyIsDigit_digitChar h2,
    digitVal_digitChar h1, digitVal_digitChar h2, hrec]
  rw [if_pos (by simp [hd1, hd2])]

theorem parseMonthTail_fmt (dd m y : Nat) (hm1 : 1 ≤ m) (hm2 : m ≤ 12) (hy : y ≤ 9999) :
    parseMonthTail dd (fmt2 m ++ '.' :: fmt4 y) = some (dd, m, y) := by
  unfold parseMonthTail
  rw [parseMonth2_fmt2 m ('.' :: fmt4 y) hm1 hm2]
  simp only [Option.some_bind]
  rw [parseTailDMY_fmt dd m y hy]
  rfl

theorem parseDMY_fmt (d m y : Nat) (hd1 : 1 ≤ d) (hd2 : d ≤ 31)
    (hm1 : 1 ≤ m) (hm2 : m ≤ 12) (hy : y ≤ 9999) :
    parseDMY (fmt2 d ++ ('.' :: (fmt2 m ++ ('.' :: fmt4 y)))) = some (d, m, y) := by
  unfold parseDMY
  rw [parseDay2_fmt2 d ('.' :: (fmt2 m ++ ('.' :: fmt4 y))) hd1 hd2]
  simp only [Option.some_bind, parseDot]
  rw [parseMonthTail_fmt d m y hm1 hm2 hy]
  rfl

theorem pyStrptimeDate_strftime (d : PyDate) (hv : d.isValid = true) :
    pyStrptimeDate d.strftimeDMY = some d := by
  obtain ⟨hy1, hy2, hm1, hm2, hd1, hd2⟩ := isValid_unpack hv
  unfold pyStrptimeDate
  rw [show (d.strftimeDMY).data
      = fmt2 d.day ++ ('.' :: (fmt2 d.month ++ ('.' :: fmt4 d.year))) from rfl]
  rw [parseDMY_fmt d.day d.month d.year hd1 hd2 hm1 hm2 hy2]
  simp only [Option.some_bind]
  rw [show (PyDate.mk d.year d.month d.day) = d from rfl, hv]
  simp

theorem dropWhile_eq_self_of_all {p : Char → Bool} {l : List Char}
    (h : ∀ c ∈ l, p c = false) : l.dropWhile p = l := by
  cases l with
  | nil => rfl
  | cons c l =>
    rw [List.dropWhile_cons, h c (by simp)]
    simp

theorem pyStrip_eq_self_of_all {s : String} (h : ∀ c ∈ s.data, pyIsSpace c = false) :
    pyStrip s = s := by
  unfold pyStrip
  rw [dropWhile_eq_self_of_all h,
    dropWhile_eq_self_of_all (fun c hc => h c (List.mem_reverse.mp hc)),
    List.reverse_reverse]

theorem strftime_chars_not_space (d : PyDate) :
    ∀ c ∈ (d.strftimeDMY).data, pyIsSpace c = false := by
  intro c hc
  rw [show (d.strftimeDMY).data
      = [digitChar (d.day / 10 % 10), digitChar (d.day % 10), '.',
         digitChar (d.month / 10 % 10), digitChar (d.month % 10), '.',
         digitChar (d.year / 1000 % 10), digitChar (d.year / 100 % 10),
         digitChar (d.year / 10 % 10), digitChar (d.year % 10)] from rfl] at hc
  simp only [List.mem_cons, List.not_mem_nil, or_false] at hc
  rcases hc with h | h | h | h | h | h | h | h | h | h <;> subst h <;>
    first
      | exact pyIsSpace_digitChar (Nat.mod_lt _ (by omega))
      | decide

theorem mkBirthday_strftime (d : PyDate) (hv : d.isValid = true) :
    mkBirthday d.strftimeDMY = .ok ⟨d, d.strftimeDMY⟩ := by
  unfold mkBirthday
  rw [pyStrip_eq_self_of_all (strftime_chars_not_space d),
    pyStrptimeDate_strftime d hv]

theorem pyStrptimeDate_isValid {s : String} {d : PyDate}
    (h : pyStrptimeDate s = some d) : d.isValid = true := by
  unfold pyStrptimeDate at h
  match hq : parseDMY s.data with
  | none => rw [hq] at h; simp at h
  | some (dd, mm, yy) =>
    rw [hq] at h
    simp only [Option.some_bind] at h
    split at h
    · rename_i hval
      cases h
      exact hval
    · cases h

/-! ## Claim C8 -/

/-- The pattern the specification claims for birthdays (`DD.MM.YYYY`:
two-digit day, two-digit month, four-digit year, dot separators), written
from the spec's words for comparison with the implementation. -/
def matchesDDMMYYYY (s : String) : Bool :=
  match s.data with
  | [d1, d2, s1, m1, m2, s2, y1, y2, y3, y4] =>
    pyIsDigit d1 && pyIsDigit d2 && s1 == '.' && pyIsDigit m1 && pyIsDigit m2 &&
      s2 == '.' && pyIsDigit y1 && pyIsDigit y2 && pyIsDigit y3 && pyIsDigit y4
  | _ => false

/-- C8 counterexample: `Birthday` accepts `"1.1.2020"`, a string that does
not match the claimed fixed two-digit-day two-digit-month pattern
(CPython's `strptime` `%d`/`%m` also match single digits), so
`validate_birthday` does not succeed *exactly* on `DD.MM.YYYY` strings —
and this accepted input re-formats to `"01.01.2020"`, not to itself. -/
theorem C8_counterexample :
    mkBirthday "1.1.2020" = .ok ⟨⟨2020, 1, 1⟩, "01.01.2020"⟩ ∧
    matchesDDMMYYYY "1.1.2020" = false := by
  constructor
  · decide
  · decide

/-- C8 amended: `validate_birthday` accepts the claimed `DD.MM.YYYY`
strings denoting real calendar dates but also their unpadded variants
and surrounding whitespace (CPython `strptime` leniency); every accepted
input stores a real (valid) structured date together with its canonical
zero-padded re-formatted string; every canonical string of a valid date
is accepted and round-trips to an identical canonical string; invalid
calendar dates (e.g. `31.02.2020`), wrong separators, and non-numeric
fields fail with the `ValueError`. -/
theorem C8_validate_birthday :
    (∀ s b, mkBirthday s = .ok b → b.date.isValid = true ∧ b.value = b.date.strftimeDMY) ∧
    (∀ d : PyDate, d.isValid = true → mkBirthday d.strftimeDMY = .ok ⟨d, d.strftimeDMY⟩) ∧
    mkBirthday "31.02.2020" = .error (.valueError "Invalid date format. Use DD.MM.YYYY") ∧
    mkBirthday "31/12/2020" = .error (.valueError "Invalid date format. Use DD.MM.YYYY") ∧
    mkBirthday "aa.bb.cccc" = .error (.valueError "Invalid date format. Use DD.MM.YYYY") := by
  refine ⟨?_, mkBirthday_strftime, by decide, by decide, by decide⟩
  intro s b h
  unfold mkBirthday at h
  match hp : pyStrptimeDate (pyStrip s) with
  | none => rw [hp] at h; cases h
  | some d0 =>
    rw [hp] at h
    cases h
    exact ⟨pyStrptimeDate_isValid hp, rfl⟩

/-- C8 witness: the canonical string of 15 June 2020 is accepted and
round-trips identically; the parsed result of `"15.06.2020"` stores a
valid date and the canonical string. -/
theorem C8_validate_birthday_witness :
    mkBirthday (PyDate.strftimeDMY ⟨2020, 6, 15⟩)
      = .ok ⟨⟨2020, 6, 15⟩, PyDate.strftimeDMY ⟨2020, 6, 15⟩⟩ ∧
    (∀ b, mkBirthday "15.06.2020" = .ok b →
      b.date.isValid = true ∧ b.value = b.date.strftimeDMY) :=
  ⟨C8_validate_birthday.2.1 ⟨2020, 6, 15⟩ (by decide),
   fun b hb => C8_validate_birthday.1 "15.06.2020" b hb⟩

/-! ## Claim C5: `get_upcoming_birthdays` against the spec's description -/

/-- The spec's description of one record's potential entry, written from
the claim's words: the this-year occurrence of the birthday (rolled to
next year when strictly before today), kept when its day difference from
today is between 0 and 7 inclusive, with the congratulation date equal to
the occurrence except that Saturday/Sunday occurrences shift to the next
Monday. -/
def specEntry (today : PyDate) (r : Record) : Option (String × PyDate) :=
  match r.birthday with
  | none => none
  | some b =>
    let occ0 : PyDate := ⟨today.year, b.date.month, b.date.day⟩
    let occ : PyDate :=
      if occ0.pyLt today then ⟨today.year + 1, b.date.month, b.date.day⟩ else occ0
    let diff : Int := (occ.toOrdinal : Int) - (today.toOrdinal : Int)
    if 0 ≤ diff ∧ diff ≤ 7 then
      some (r.name, if occ.pyWeekday ≥ 5 then occ.addDays (7 - occ.pyWeekday) else occ)
    else none

/-- The spec's description of the whole query: exactly the qualifying
records, sorted ascending by congratulation date, ties kept in record
order (stable). -/
def specUpcoming (today : PyDate) (book : AddressBook) : List (String × PyDate) :=
  ((book.data.map Prod.snd).filterMap (specEntry today)).insertionSort
    (fun a b => a.2.toOrdinal ≤ b.2.toOrdinal)

/-- The code's dict entry corresponding to a spec entry. -/
def toBEntry (e : String × PyDate) : BEntry := ⟨e.1, e.2.strftimeDMY⟩

/-- The year projections `date.replace(year=...)` performed for a record
succeed (they fail exactly for a 29 February birthday projected into a
non-leap year, and out-of-range years). -/
def recProjOkB (today : PyDate) (r : Record) : Bool :=
  match r.birthday with
  | none => true
  | some b =>
    (PyDate.mk today.year b.date.month b.date.day).isValid &&
      (!(PyDate.mk today.year b.date.month b.date.day).pyLt today ||
        (PyDate.mk (today.year + 1) b.date.month b.date.day).isValid)

theorem nextDay_isValid {d : PyDate} (hv : d.isValid = true) (hy : d.year ≤ 9998) :
    (d.nextDay).isValid = true ∧ (d.nextDay).year ≤ d.year + 1 := by
  unfold PyDate.nextDay
  split
  · rename_i hlt
    constructor
    · simp only [PyDate.isValid, Bool.and_eq_true, decide_eq_true_eq] at hv ⊢
      omega
    · simp
  · split
    · rename_i hm12
      have hpos := daysInMonth_pos d.year (d.month + 1)
      constructor
      · simp only [PyDate.isValid, Bool.and_eq_true, decide_eq_true_eq] at hv ⊢
        omega
      · simp
    · have h31 : daysInMonth (d.year + 1) 1 = 31 := rfl
      constructor
      · simp only [PyDate.isValid, Bool.and_eq_true, decide_eq_true_eq, h31] at hv ⊢
        omega
      · simp

theorem addDays2_isValid {d : PyDate} (hv : d.isValid = true) (hy : d.year ≤ 9997)
    {n : Nat} (hn : n ≤ 2) : (d.addDays n).isValid = true := by
  match n, hn with
  | 0, _ => exact hv
  | 1, _ => exact (nextDay_isValid hv (by omega)).1
  | 2, _ =>
    have h1 := nextDay_isValid hv (by omega)
    exact (nextDay_isValid h1.1 (by omega)).1

theorem entryKey_strftime (n : String) (d : PyDate) (hv : d.isValid = true) :
    entryKey ⟨n, d.strftimeDMY⟩ = d.toOrdinal := by
  unfold entryKey
  rw [show (BEntry.mk n d.strftimeDMY).congratulation_date = d.strftimeDMY from rfl,
    pyStrptimeDate_strftime d hv]

theorem processRecord_spec (today : PyDate) (r : Record)
    (h : recProjOkB today r = true) :
    processRecord today r = .ok ((specEntry today r).map toBEntry) := by
  match hb : r.birthday with
  | none => simp only [processRecord, specEntry, hb, Option.map_none']
  | some b =>
    simp only [recProjOkB, hb, Bool.and_eq_true, Bool.or_eq_true, Bool.not_eq_true'] at h
    obtain ⟨hv0, hroll⟩ := h
    have hrep0 : b.date.replaceYear today.year
        = .ok (PyDate.mk today.year b.date.month b.date.day) := by
      simp only [PyDate.replaceYear]
      rw [if_pos hv0]
    simp only [processRecord, specEntry, hb]
    rw [hrep0, exbind_ok]
    by_cases hlt : (PyDate.mk today.year b.date.month b.date.day).pyLt today = true
    · have hv1 : (PyDate.mk (today.year + 1) b.date.month b.date.day).isValid = true := by
        rcases hroll with h | h
        · rw [hlt] at h; cases h
        · exact h
      have hrep1 : b.date.replaceYear (today.year + 1)
          = .ok (PyDate.mk (today.year + 1) b.date.month b.date.day) := by
        simp only [PyDate.replaceYear]
        rw [if_pos hv1]
      rw [hlt]
      simp only [if_true, hrep1, exbind_ok]
      split
      · rfl
      · rfl
    · rw [Bool.not_eq_true] at hlt
      rw [hlt]
      simp only [Bool.false_eq_true, if_false, exbind_pure]
      split
      · rfl
      · rfl

theorem collectUpcoming_spec (today : PyDate) (l : List Record)
    (h : ∀ r ∈ l, recProjOkB today r = true) :
    collectUpcoming today l = .ok ((l.filterMap (specEntry today)).map toBEntry) := by
  induction l with
  | nil => rfl
  | cons r rs ih =>
    rw [collectUpcoming, processRecord_spec today r (h r (by simp)), exbind_ok,
      ih (fun x hx => h x (by simp [hx])), exbind_ok]
    cases hsp : specEntry today r <;> simp [hsp, List.filterMap_cons]

theorem specEntry_congrat_isValid (today : PyDate) (r : Record) (n : String) (cd : PyDate)
    (hsp : specEntry today r = some (n, cd)) (hok : recProjOkB today r = true)
    (hy : today.year ≤ 9996) : cd.isValid = true := by
  match hb : r.birthday with
  | none =>
    simp only [specEntry, hb] at hsp
    cases hsp
  | some b =>
    simp only [recProjOkB, hb, Bool.and_eq_true, Bool.or_eq_true, Bool.not_eq_true'] at hok
    obtain ⟨hv0, hroll⟩ := hok
    simp only [specEntry, hb] at hsp
    set occ0 : PyDate := ⟨today.year, b.date.month, b.date.day⟩ with hocc0
    by_cases hlt : occ0.pyLt today = true
    · rw [hlt] at hsp
      simp only [if_true] at hsp
      have hv1 : (PyDate.mk (today.year + 1) b.date.month b.date.day).isValid = true := by
        rcases hroll with h | h
        · rw [hlt] at h; cases h
        · exact h
      split at hsp
      · cases hsp
        split
        · exact addDays2_isValid hv1 (by simp; omega) (by omega)
        · exact hv1
      · cases hsp
    · rw [Bool.not_eq_true] at hlt
      rw [hlt] at hsp
      simp only [Bool.false_eq_true, if_false] at hsp
      split at hsp
      · cases hsp
        split
        · exact addDays2_isValid hv0 (by simp; omega) (by omega)
        · exact hv0
      · cases hsp

/-- C5 amended: whenever every record's year projection succeeds (no
29 February birthday meeting a non-leap projected year) and the dates in
play stay inside the representable calendar range, `get_upcoming_birthdays`
returns exactly the records whose rolled occurrence lies 0–7 days from
today, each entry carrying the occurrence as congratulation date with
weekend occurrences shifted to the next Monday, sorted ascending by
congratulation date with ties in stable record order — the list described
by the spec (`specUpcoming`); and every returned list is sorted by the
parsed congratulation date. -/
theorem C5_upcoming_birthdays (book : AddressBook) (today : PyDate)
    (hproj : ∀ r ∈ book.data.map Prod.snd, recProjOkB today r = true)
    (hy : today.year ≤ 9996) :
    book.get_upcoming_birthdays today = .ok ((specUpcoming today book).map toBEntry) ∧
    ∀ l, book.get_upcoming_birthdays today = .ok l →
      l.Sorted (fun a b => entryKey a ≤ entryKey b) := by
  have hcol := collectUpcoming_spec today (book.data.map Prod.snd) hproj
  have hkey : ∀ e ∈ (book.data.map Prod.snd).filterMap (specEntry today),
      entryKey (toBEntry e) = e.2.toOrdinal := by
    intro e he
    obtain ⟨r, hr, hsp⟩ := List.mem_filterMap.mp he
    exact entryKey_strftime e.1 e.2
      (specEntry_congrat_isValid today r e.1 e.2 hsp (hproj r hr) hy)
  constructor
  · unfold AddressBook.get_upcoming_birthdays
    rw [hcol, exbind_ok]
    unfold specUpcoming
    congr 1
    rw [List.map_insertionSort (fun a b => a.2.toOrdinal ≤ b.2.toOrdinal)
      (fun a b => entryKey a ≤ entryKey b) toBEntry
      ((book.data.map Prod.snd).filterMap (specEntry today))
      (fun a ha b hb => by simp only [hkey a ha, hkey b hb])]
  · intro l hl
    unfold AddressBook.get_upcoming_birthdays at hl
    rw [hcol, exbind_ok] at hl
    cases hl
    haveI : IsTotal BEntry (fun a b => entryKey a ≤ entryKey b) :=
      ⟨fun a b => Nat.le_total _ _⟩
    haveI : IsTrans BEntry (fun a b => entryKey a ≤ entryKey b) :=
      ⟨fun a b c => Nat.le_trans⟩
    exact List.sorted_insertionSort _ _

/-- C5 counterexample: the claim quantifies over every Store and date,
but on a Store holding a 29 February birthday with a non-leap current
year the code raises `ValueError` from `date.replace` instead of
returning the described list. -/
theorem C5_counterexample :
    AddressBook.get_upcoming_birthdays
        ⟨[("Leap", ⟨"Leap", ["0501234567"], some ⟨⟨2020, 2, 29⟩, "29.02.2020"⟩⟩)]⟩
        ⟨2025, 1, 15⟩
      = .error (.valueError "day is out of range for month") := by decide

/-- C5 witness, the claim's concrete instance: today = 2024-06-10
(a Monday); a contact with birthday 15.06 gets congratulation date
17.06.2024 (15 June 2024 is a Saturday, shifted to Monday), and a
contact with birthday 08.06 (already passed, next occurrence 363 days
away) is excluded. -/
theorem C5_upcoming_birthdays_witness :
    AddressBook.get_upcoming_birthdays
        ⟨[("June", ⟨"June", ["0501234567"], some ⟨⟨1990, 6, 15⟩, "15.06.1990"⟩⟩),
          ("Past", ⟨"Past", [], some ⟨⟨1990, 6, 8⟩, "08.06.1990"⟩⟩)]⟩ ⟨2024, 6, 10⟩
      = .ok [⟨"June", "17.06.2024"⟩] := by
  have h := (C5_upcoming_birthdays
    ⟨[("June", ⟨"June", ["0501234567"], some ⟨⟨1990, 6, 15⟩, "15.06.1990"⟩⟩),
      ("Past", ⟨"Past", [], some ⟨⟨1990, 6, 8⟩, "08.06.1990"⟩⟩)]⟩ ⟨2024, 6, 10⟩
    (by decide) (by decide)).1
  rw [h]
  decide

end Task1
